import Mathlib

/-!
Shallow embedding of the runtime-uuid-registry crate (src/registry.rs,
src/interface.rs, src/lib.rs).

The registry is a process-wide map from context name to a set of 128-bit
tokens.  We model the map as an association list `List (Ctx × List Uuid)`
(at most one entry per key in every reachable state), tokens as `Nat`
values below `2 ^ 128`, and the random number generator as an explicit
entropy stream `ent : Nat → Nat` whose value at index `k` supplies the 96
random bits of the candidate generated on retry attempt `k`.

The two storage backends (`parking_lot::Mutex<HashMap<_, HashSet<_>>>`
versus `DashMap<_, DashSet<_>>`) behave identically sequentially except in
the `remove` primitive: the single-threaded backend prunes a context entry
whose set becomes empty, the concurrent backend leaves the empty set in
place.  `Backend` selects between the two translations.
-/

namespace UuidRegistry

instance {ε α : Type} [DecidableEq ε] [DecidableEq α] :
    DecidableEq (Except ε α) := fun
  | .ok a, .ok b =>
      if h : a = b then .isTrue (by rw [h]) else .isFalse (by simp [h])
  | .error a, .error b =>
      if h : a = b then .isTrue (by rw [h]) else .isFalse (by simp [h])
  | .ok _, .error _ => .isFalse (by simp)
  | .error _, .ok _ => .isFalse (by simp)

abbrev Ctx := String

abbrev Uuid := Nat

/-- Structured content of the human-readable detail strings carried by
`UuidPoolError` (the data interpolated by the `format!` calls in
registry.rs). -/
inductive ErrMsg where
  /-- format: Failed to generate unique UUID after n attempts -/
  | afterAttempts (n : Nat)
  /-- format: UUID already exists in pool for context c: u -/
  | alreadyExists (context : Ctx) (uuid : Uuid)
  /-- format: Failed to locate/remove UUID in pool -/
  | locateRemove
  /-- format: Failed to find UUID in pool for context c: u -/
  | findFailed (context : Ctx) (uuid : Uuid)
  /-- format: Failed to find UUID in pool for context c: u (from the set
  error branch of replace, which names the old uuid) -/
  | setFailed (context : Ctx) (uuid : Uuid)
  /-- format: Failed to find UUIDs in pool for context c -/
  | findCtxFailed (context : Ctx)
deriving DecidableEq

/-- The error enum of src/lib.rs. -/
inductive UuidPoolError where
  | FailedToGenerateUniqueUuidError (m : ErrMsg)
  | FailedToFindUuidInPoolError (m : ErrMsg)
  | FailedToSetUuidInPoolError (m : ErrMsg)
deriving DecidableEq

/-- Storage backend selected by the `concurrent` cargo feature. -/
inductive Backend where
  | singleThreaded
  | concurrent
deriving DecidableEq

/-- The global pool state: context name → set of live tokens, modelled as
an association list. -/
structure Reg where
  entries : List (Ctx × List Uuid)
deriving DecidableEq

def Reg.empty : Reg := ⟨[]⟩

/-- Map lookup on the association list (first entry with the key). -/
def lookupCtx : List (Ctx × List Uuid) → Ctx → Option (List Uuid)
  | [], _ => none
  | (k, v) :: t, c => if k = c then some v else lookupCtx t c

/-- Map update: replace the first entry with the key, or append a fresh
entry when the key is absent. -/
def setCtx : List (Ctx × List Uuid) → Ctx → List Uuid → List (Ctx × List Uuid)
  | [], c, s => [(c, s)]
  | (k, v) :: t, c, s => if k = c then (c, s) :: t else (k, v) :: setCtx t c s

/-- Map removal of a key (`HashMap::remove` / `DashMap::remove`). -/
def delCtx (l : List (Ctx × List Uuid)) (c : Ctx) : List (Ctx × List Uuid) :=
  l.filter (fun p => p.1 ≠ c)

namespace Registry

/-- registry.rs `make_uuid_with_base`: bytes 0..4 hold `base` big-endian,
bytes 4..16 hold fresh random bytes, then `Uuid::new_v8` stamps the
version nibble (high nibble of byte 6, bits 76..80 of the 128-bit value,
set to 8) and the RFC 4122 variant (top two bits of byte 8, bits 62..64,
set to 0b10).  `e` is the 96-bit entropy drawn for this candidate.  The
result type is written `Nat` (definitionally `Uuid`) so that arithmetic
over it stays in `Nat`. -/
def make_uuid_with_base (base : Nat) (e : Nat) : Nat :=
  let raw := e % 2 ^ 96
  let withVariant := raw / 2 ^ 64 * 2 ^ 64 + 2 * 2 ^ 62 + raw % 2 ^ 62
  let withVersion :=
    withVariant / 2 ^ 80 * 2 ^ 80 + 8 * 2 ^ 76 + withVariant % 2 ^ 76
  base % 2 ^ 32 * 2 ^ 96 + withVersion

/-- registry.rs `try_insert`: create the context entry if missing, insert
the token if not already present; returns whether it was newly inserted
(the `HashSet::insert` / `DashSet::insert` boolean). -/
def try_insert (r : Reg) (context : Ctx) (uuid : Uuid) : Bool × Reg :=
  match lookupCtx r.entries context with
  | some s =>
      if uuid ∈ s then (false, r)
      else (true, ⟨setCtx r.entries context (uuid :: s)⟩)
  | none => (true, ⟨setCtx r.entries context [uuid]⟩)

/-- registry.rs `contains`. -/
def contains (r : Reg) (context : Ctx) (uuid : Uuid) : Bool :=
  match lookupCtx r.entries context with
  | some s => decide (uuid ∈ s)
  | none => false

/-- registry.rs `remove`: the single-threaded backend prunes the context
entry when the removal leaves the set empty; the concurrent backend
(`DashSet::remove(..).is_some()`) does not. -/
def remove (bk : Backend) (r : Reg) (context : Ctx) (uuid : Uuid) :
    Bool × Reg :=
  match bk with
  | .singleThreaded =>
      match lookupCtx r.entries context with
      | none => (false, r)
      | some s =>
          let removed := decide (uuid ∈ s)
          let s2 := s.erase uuid
          if s2.isEmpty then (removed, ⟨delCtx r.entries context⟩)
          else (removed, ⟨setCtx r.entries context s2⟩)
  | .concurrent =>
      match lookupCtx r.entries context with
      | none => (false, r)
      | some s => (decide (uuid ∈ s), ⟨setCtx r.entries context (s.erase uuid)⟩)

/-- registry.rs `clear_context`. -/
def clear_context (r : Reg) (context : Ctx) : Reg :=
  ⟨delCtx r.entries context⟩

/-- registry.rs `clear_all`. -/
def clear_all (_ : Reg) : Reg := ⟨[]⟩

/-- Recursion core of registry.rs `random_uuid`, structurally recursive on
the remaining retry budget `maxRetries - retryCount` so that it evaluates
in the kernel; `retryCount ≥ maxRetries` holds exactly when that
difference is zero.  The error message carries `maxRetries`, the attempt
count, exactly as the `format!` in the source does. -/
def random_uuid_go (ent : Nat → Nat) (context : Ctx) (base maxRetries : Nat) :
    Nat → Nat → Reg → Except UuidPoolError Uuid × Reg
  | 0, _, r =>
      (.error (.FailedToGenerateUniqueUuidError (.afterAttempts maxRetries)), r)
  | n + 1, retryCount, r =>
      let newUuid := make_uuid_with_base base (ent retryCount)
      let p := try_insert r context newUuid
      if p.1 then (.ok newUuid, p.2)
      else random_uuid_go ent context base maxRetries n (retryCount + 1) p.2

/-- registry.rs `random_uuid`. -/
def random_uuid (ent : Nat → Nat) (r : Reg) (context : Ctx)
    (base maxRetries retryCount : Nat) : Except UuidPoolError Uuid × Reg :=
  random_uuid_go ent context base maxRetries (maxRetries - retryCount)
    retryCount r

/-- registry.rs `add_uuid_to_pool`. -/
def add_uuid_to_pool (r : Reg) (context : Ctx) (uuid : Uuid) :
    Except UuidPoolError Unit × Reg :=
  match contains r context uuid with
  | true =>
      (.error (.FailedToGenerateUniqueUuidError (.alreadyExists context uuid)), r)
  | false =>
      let p := try_insert r context uuid
      if p.1 then (.ok (), p.2)
      else
        (.error (.FailedToGenerateUniqueUuidError (.alreadyExists context uuid)),
          p.2)

/-- registry.rs `remove_uuid_from_pool`. -/
def remove_uuid_from_pool (bk : Backend) (r : Reg) (context : Ctx)
    (uuid : Uuid) : Except UuidPoolError Unit × Reg :=
  let p := remove bk r context uuid
  match p.1 with
  | true => (.ok (), p.2)
  | false => (.error (.FailedToFindUuidInPoolError .locateRemove), p.2)

/-- registry.rs `replace_uuid_in_pool`. -/
def replace_uuid_in_pool (bk : Backend) (r : Reg) (context : Ctx)
    (old_uuid new_uuid : Uuid) : Except UuidPoolError Unit × Reg :=
  let step1 : Except UuidPoolError Unit × Reg :=
    if contains r context old_uuid then (.ok (), r)
    else add_uuid_to_pool r context new_uuid
  match step1 with
  | (.error e, r1) => (.error e, r1)
  | (.ok _, r1) =>
      let p := remove bk r1 context old_uuid
      if p.1 then
        let q := try_insert p.2 context new_uuid
        if q.1 then (.ok (), q.2)
        else
          (.error (.FailedToSetUuidInPoolError (.setFailed context old_uuid)),
            q.2)
      else
        (.error (.FailedToFindUuidInPoolError (.findFailed context old_uuid)),
          p.2)

/-- registry.rs `get_context_uuids_from_pool`: snapshot copy of the
context's tokens, each paired with the context name; not-found error when
the context key is absent from the map. -/
def get_context_uuids_from_pool (r : Reg) (context : Ctx) :
    Except UuidPoolError (List (Ctx × Uuid)) :=
  match lookupCtx r.entries context with
  | some s => .ok (s.map (fun u => (context, u)))
  | none => .error (.FailedToFindUuidInPoolError (.findCtxFailed context))

/-- registry.rs `drain_context`. -/
def drain_context (r : Reg) (context : Ctx) :
    Except UuidPoolError Unit × Reg :=
  (.ok (), clear_context r context)

/-- registry.rs `drain_all_contexts`. -/
def drain_all_contexts (r : Reg) : Except UuidPoolError Unit × Reg :=
  (.ok (), clear_all r)

end Registry

namespace Interface

def DEFAULT_UUID_BASE : Nat := 64

def DEFAULT_MAX_RETRIES : Nat := 64

/-- interface.rs `reserve_with`. -/
def reserve_with (ent : Nat → Nat) (r : Reg) (context : Ctx)
    (base maxRetries : Nat) : Except UuidPoolError Uuid × Reg :=
  Registry.random_uuid ent r context base maxRetries 0

/-- interface.rs `reserve`. -/
def reserve (ent : Nat → Nat) (r : Reg) (context : Ctx) :
    Except UuidPoolError Uuid × Reg :=
  reserve_with ent r context DEFAULT_UUID_BASE DEFAULT_MAX_RETRIES

/-- interface.rs `reserve_with_base`. -/
def reserve_with_base (ent : Nat → Nat) (r : Reg) (context : Ctx)
    (base : Nat) : Except UuidPoolError Uuid × Reg :=
  reserve_with ent r context base DEFAULT_MAX_RETRIES

/-- interface.rs `add`. -/
def add (r : Reg) (context : Ctx) (uuid : Uuid) :
    Except UuidPoolError Unit × Reg :=
  Registry.add_uuid_to_pool r context uuid

/-- interface.rs `remove`. -/
def remove (bk : Backend) (r : Reg) (context : Ctx) (uuid : Uuid) :
    Except UuidPoolError Unit × Reg :=
  Registry.remove_uuid_from_pool bk r context uuid

/-- interface.rs `try_remove`: same state change as `remove`, error
collapsed to a boolean via `.is_ok()`. -/
def try_remove (bk : Backend) (r : Reg) (context : Ctx) (uuid : Uuid) :
    Bool × Reg :=
  let p := Registry.remove_uuid_from_pool bk r context uuid
  ((match p.1 with | .ok _ => true | .error _ => false), p.2)

/-- interface.rs `replace`. -/
def replace (bk : Backend) (r : Reg) (context : Ctx)
    (old_uuid new_uuid : Uuid) : Except UuidPoolError Unit × Reg :=
  Registry.replace_uuid_in_pool bk r context old_uuid new_uuid

/-- interface.rs `get`: read-only. -/
def get (r : Reg) (context : Ctx) :
    Except UuidPoolError (List (Ctx × Uuid)) :=
  Registry.get_context_uuids_from_pool r context

/-- interface.rs `clear_context`. -/
def clear_context (r : Reg) (context : Ctx) :
    Except UuidPoolError Unit × Reg :=
  Registry.drain_context r context

/-- interface.rs `clear_all`. -/
def clear_all (r : Reg) : Except UuidPoolError Unit × Reg :=
  Registry.drain_all_contexts r

end Interface

/-- Invariant I1: every token set stored in the registry is duplicate
free. -/
def WF (r : Reg) : Prop := ∀ p ∈ r.entries, (p.2 : List Uuid).Nodup

/-- One public operation, with arbitrary caller arguments and either
storage backend, relating the pool state before the call to the pool
state after it (error outcomes included, since every operation returns
its successor state unconditionally). -/
inductive Step : Reg → Reg → Prop where
  | reserve (ent : Nat → Nat) (context : Ctx) (base maxRetries : Nat)
      (r : Reg) : Step r (Interface.reserve_with ent r context base maxRetries).2
  | add (context : Ctx) (uuid : Uuid) (r : Reg) :
      Step r (Interface.add r context uuid).2
  | remove (bk : Backend) (context : Ctx) (uuid : Uuid) (r : Reg) :
      Step r (Interface.remove bk r context uuid).2
  | try_remove (bk : Backend) (context : Ctx) (uuid : Uuid) (r : Reg) :
      Step r (Interface.try_remove bk r context uuid).2
  | replace (bk : Backend) (context : Ctx) (old_uuid new_uuid : Uuid)
      (r : Reg) : Step r (Interface.replace bk r context old_uuid new_uuid).2
  | get (context : Ctx) (r : Reg) : Step r r
  | clear_context (context : Ctx) (r : Reg) :
      Step r (Interface.clear_context r context).2
  | clear_all (r : Reg) : Step r (Interface.clear_all r).2

/-- Pool states reachable from the empty registry by any sequence of
public operations. -/
inductive Reachable : Reg → Prop where
  | empty : Reachable Reg.empty
  | step {r r' : Reg} : Reachable r → Step r r' → Reachable r'

/-- Modelled from the spec for the refinement comparison in the add
claim: the observable behavior of a single `insert_if_absent` call, with
the already-present diagnosis produced solely from the atomic insert's
boolean. -/
def add_single (r : Reg) (context : Ctx) (uuid : Uuid) :
    Except UuidPoolError Unit × Reg :=
  let p := Registry.try_insert r context uuid
  if p.1 then (.ok (), p.2)
  else
    (.error (.FailedToGenerateUniqueUuidError (.alreadyExists context uuid)),
      p.2)

/-- Discriminator for the NotFound error kind
(`FailedToFindUuidInPoolError`). -/
def isNotFound {α : Type} : Except UuidPoolError α → Bool
  | .error (.FailedToFindUuidInPoolError _) => true
  | _ => false

/-! ### Association-list lemmas -/

theorem lookup_setCtx_self (l : List (Ctx × List Uuid)) (c : Ctx)
    (s : List Uuid) : lookupCtx (setCtx l c s) c = some s := by
  induction l with
  | nil => simp [setCtx, lookupCtx]
  | cons p t ih =>
      obtain ⟨k, v⟩ := p
      by_cases hk : k = c <;> simp [setCtx, lookupCtx, hk, ih]

theorem lookup_setCtx_ne (l : List (Ctx × List Uuid)) (c k : Ctx)
    (s : List Uuid) (h : k ≠ c) :
    lookupCtx (setCtx l c s) k = lookupCtx l k := by
  induction l with
  | nil => simp [setCtx, lookupCtx, Ne.symm h]
  | cons p t ih =>
      obtain ⟨k', v⟩ := p
      by_cases hk : k' = c
      · subst hk
        simp [setCtx, lookupCtx, Ne.symm h]
      · by_cases hk2 : k' = k
        · subst hk2
          simp [setCtx, lookupCtx, hk]
        · simp [setCtx, lookupCtx, hk, hk2, ih]

theorem lookup_delCtx_self (l : List (Ctx × List Uuid)) (c : Ctx) :
    lookupCtx (delCtx l c) c = none := by
  induction l with
  | nil => simp [delCtx, lookupCtx]
  | cons p t ih =>
      obtain ⟨k, v⟩ := p
      by_cases hk : k = c <;>
        simp_all [delCtx, lookupCtx, List.filter]

theorem lookup_delCtx_ne (l : List (Ctx × List Uuid)) (c k : Ctx)
    (h : k ≠ c) : lookupCtx (delCtx l c) k = lookupCtx l k := by
  induction l with
  | nil => simp [delCtx, lookupCtx]
  | cons p t ih =>
      obtain ⟨k', v⟩ := p
      by_cases hk : k' = c
      · subst hk
        simp_all [delCtx, lookupCtx, List.filter, Ne.symm h]
      · by_cases hk2 : k' = k <;>
          simp_all [delCtx, lookupCtx, List.filter, hk]

theorem mem_setCtx {l : List (Ctx × List Uuid)} {c : Ctx} {s : List Uuid}
    {p : Ctx × List Uuid} (h : p ∈ setCtx l c s) : p ∈ l ∨ p = (c, s) := by
  induction l with
  | nil => simpa [setCtx] using h
  | cons q t ih =>
      obtain ⟨k, v⟩ := q
      simp only [setCtx] at h
      by_cases hk : k = c
      · rw [if_pos hk] at h
        rcases List.mem_cons.mp h with h2 | h2
        · exact Or.inr h2
        · exact Or.inl (List.mem_cons_of_mem _ h2)
      · rw [if_neg hk] at h
        rcases List.mem_cons.mp h with h2 | h2
        · exact Or.inl (by simp [h2])
        · rcases ih h2 with h3 | h3
          · exact Or.inl (List.mem_cons_of_mem _ h3)
          · exact Or.inr h3

theorem mem_delCtx {l : List (Ctx × List Uuid)} {c : Ctx}
    {p : Ctx × List Uuid} (h : p ∈ delCtx l c) : p ∈ l :=
  List.mem_of_mem_filter h

theorem lookup_mem {l : List (Ctx × List Uuid)} {c : Ctx} {s : List Uuid}
    (h : lookupCtx l c = some s) : (c, s) ∈ l := by
  induction l with
  | nil => simp [lookupCtx] at h
  | cons q t ih =>
      obtain ⟨k, v⟩ := q
      simp only [lookupCtx] at h
      by_cases hk : k = c
      · rw [if_pos hk] at h
        injection h with hv
        subst hv
        rw [← hk]
        exact List.mem_cons_self _ _
      · rw [if_neg hk] at h
        exact List.mem_cons_of_mem _ (ih h)

/-! ### The per-context uniqueness invariant (I1) -/

theorem WF_empty : WF Reg.empty := by intro p hp; simp [Reg.empty] at hp

theorem WF_try_insert {r : Reg} (c : Ctx) (u : Uuid) (h : WF r) :
    WF (Registry.try_insert r c u).2 := by
  unfold Registry.try_insert
  cases heq : lookupCtx r.entries c with
  | none =>
      intro p hp
      rcases mem_setCtx hp with hp2 | hp2
      · exact h p hp2
      · simp [hp2]
  | some s =>
      by_cases hu : u ∈ s
      · simpa [hu] using h
      · simp only [hu, if_neg]
        intro p hp
        rcases mem_setCtx hp with hp2 | hp2
        · exact h p hp2
        · subst hp2
          exact List.Nodup.cons hu (h (c, s) (lookup_mem heq))

theorem WF_remove {r : Reg} (bk : Backend) (c : Ctx) (u : Uuid) (h : WF r) :
    WF (Registry.remove bk r c u).2 := by
  have herase : ∀ s : List Uuid, (c, s) ∈ r.entries →
      WF ⟨setCtx r.entries c (s.erase u)⟩ := by
    intro s hs p hp
    rcases mem_setCtx hp with hp2 | hp2
    · exact h p hp2
    · subst hp2
      exact List.Nodup.erase u (h (c, s) hs)
  have hdel : WF ⟨delCtx r.entries c⟩ := fun p hp => h p (mem_delCtx hp)
  unfold Registry.remove
  cases bk with
  | singleThreaded =>
      cases heq : lookupCtx r.entries c with
      | none => simpa using h
      | some s =>
          by_cases he : (s.erase u).isEmpty
          · simpa [he] using hdel
          · simpa [he] using herase s (lookup_mem heq)
  | concurrent =>
      cases heq : lookupCtx r.entries c with
      | none => simpa using h
      | some s => simpa using herase s (lookup_mem heq)

theorem WF_clear_context {r : Reg} (c : Ctx) (h : WF r) :
    WF (Registry.clear_context r c) := fun p hp => h p (mem_delCtx hp)

theorem WF_clear_all (r : Reg) : WF (Registry.clear_all r) := by
  intro p hp; simp [Registry.clear_all] at hp

theorem WF_random_uuid_go {ent : Nat → Nat} {c : Ctx} {base m : Nat}
    (n k : Nat) {r : Reg} (h : WF r) :
    WF (Registry.random_uuid_go ent c base m n k r).2 := by
  induction n generalizing k r with
  | zero => simpa [Registry.random_uuid_go] using h
  | succ n ih =>
      unfold Registry.random_uuid_go
      by_cases hp :
          (Registry.try_insert r c
            (Registry.make_uuid_with_base base (ent k))).1
      · simpa [hp] using WF_try_insert c _ h
      · simpa [hp] using ih (k + 1) (WF_try_insert c _ h)

theorem WF_random_uuid {ent : Nat → Nat} {r : Reg} {c : Ctx}
    {base m k : Nat} (h : WF r) :
    WF (Registry.random_uuid ent r c base m k).2 :=
  WF_random_uuid_go _ _ h

theorem WF_add_uuid_to_pool {r : Reg} (c : Ctx) (u : Uuid) (h : WF r) :
    WF (Registry.add_uuid_to_pool r c u).2 := by
  unfold Registry.add_uuid_to_pool
  cases hc : Registry.contains r c u
  · by_cases hp : (Registry.try_insert r c u).1 <;>
      simpa [hp] using WF_try_insert c u h
  · simpa using h

theorem WF_remove_uuid_from_pool {r : Reg} (bk : Backend) (c : Ctx)
    (u : Uuid) (h : WF r) :
    WF (Registry.remove_uuid_from_pool bk r c u).2 := by
  unfold Registry.remove_uuid_from_pool
  cases hb : (Registry.remove bk r c u).1 <;>
    simpa [hb] using WF_remove bk c u h

theorem WF_replace_uuid_in_pool {r : Reg} (bk : Backend) (c : Ctx)
    (old_uuid new_uuid : Uuid) (h : WF r) :
    WF (Registry.replace_uuid_in_pool bk r c old_uuid new_uuid).2 := by
  unfold Registry.replace_uuid_in_pool
  by_cases hc : Registry.contains r c old_uuid
  · simp only [hc, if_pos]
    have h1 : WF (Registry.remove bk r c old_uuid).2 := WF_remove bk c old_uuid h
    by_cases hrem : (Registry.remove bk r c old_uuid).1
    · by_cases hins :
          (Registry.try_insert (Registry.remove bk r c old_uuid).2 c new_uuid).1 <;>
        simpa [hrem, hins] using WF_try_insert c new_uuid h1
    · simpa [hrem] using h1
  · simp only [hc, if_neg]
    cases hadd : Registry.add_uuid_to_pool r c new_uuid with
    | mk res r1 =>
        have h1 : WF r1 := by
          have := WF_add_uuid_to_pool c new_uuid h
          rwa [hadd] at this
        cases res with
        | error e => simpa [hc, hadd] using h1
        | ok _ =>
            have h2 : WF (Registry.remove bk r1 c old_uuid).2 :=
              WF_remove bk c old_uuid h1
            by_cases hrem : (Registry.remove bk r1 c old_uuid).1
            · by_cases hins :
                  (Registry.try_insert (Registry.remove bk r1 c old_uuid).2 c
                    new_uuid).1 <;>
                simpa [hc, hadd, hrem, hins] using WF_try_insert c new_uuid h2
            · simpa [hc, hadd, hrem] using h2

/-! ### Reachability through the public operation set -/

theorem WF_step {r r' : Reg} (h : WF r) (hs : Step r r') : WF r' := by
  cases hs with
  | reserve ent context base maxRetries =>
      exact WF_random_uuid h
  | add context uuid => exact WF_add_uuid_to_pool context uuid h
  | remove bk context uuid => exact WF_remove_uuid_from_pool bk context uuid h
  | try_remove bk context uuid =>
      simpa [Interface.try_remove] using
        WF_remove_uuid_from_pool bk context uuid h
  | replace bk context old_uuid new_uuid =>
      exact WF_replace_uuid_in_pool bk context old_uuid new_uuid h
  | get context => exact h
  | clear_context context => exact WF_clear_context context h
  | clear_all => exact WF_clear_all r

theorem reachable_WF {r : Reg} (h : Reachable r) : WF r := by
  induction h with
  | empty => exact WF_empty
  | step _ hs ih => exact WF_step ih hs

theorem sanity_add_empty :
    Interface.add Reg.empty "c" 1 = (.ok (), ⟨[("c", [1])]⟩) := by decide

theorem sanity_add_duplicate :
    (Interface.add ⟨[("c", [1])]⟩ "c" 1).1 =
      .error (.FailedToGenerateUniqueUuidError (.alreadyExists "c" 1)) := by
  decide

theorem sanity_try_remove_prunes :
    Interface.try_remove .singleThreaded ⟨[("c", [1])]⟩ "c" 1 =
      (true, ⟨[]⟩) := by decide

theorem sanity_try_remove_concurrent_keeps_entry :
    Interface.try_remove .concurrent ⟨[("c", [1])]⟩ "c" 1 =
      (true, ⟨[("c", [])]⟩) := by decide

theorem sanity_reserve_first_attempt :
    (Interface.reserve_with (fun _ => 0) Reg.empty "c" 5 1).1 =
      .ok (Registry.make_uuid_with_base 5 0) := by decide

theorem sanity_make_uuid_value :
    Registry.make_uuid_with_base 5 0 =
      5 * 2 ^ 96 + 8 * 2 ^ 76 + 2 * 2 ^ 62 := by decide

/-! ### Allocation-layer lemmas -/

theorem make_uuid_with_base_eq (base e : Nat) :
    Registry.make_uuid_with_base base e =
      base % 2 ^ 32 * 2 ^ 96 +
        ((e % 2 ^ 96 / 2 ^ 64 * 2 ^ 64 + 2 * 2 ^ 62 + e % 2 ^ 96 % 2 ^ 62) /
            2 ^ 80 * 2 ^ 80 +
          8 * 2 ^ 76 +
          (e % 2 ^ 96 / 2 ^ 64 * 2 ^ 64 + 2 * 2 ^ 62 + e % 2 ^ 96 % 2 ^ 62) %
            2 ^ 76) := rfl

theorem make_uuid_with_base_low_lt (base e : Nat) :
    Registry.make_uuid_with_base base e % 2 ^ 96 =
      Registry.make_uuid_with_base base e - base % 2 ^ 32 * 2 ^ 96 ∧
    Registry.make_uuid_with_base base e - base % 2 ^ 32 * 2 ^ 96 < 2 ^ 96 := by
  rw [make_uuid_with_base_eq]
  norm_num
  omega

theorem make_uuid_with_base_div (base e : Nat) :
    Registry.make_uuid_with_base base e / 2 ^ 96 = base % 2 ^ 32 := by
  rw [make_uuid_with_base_eq]
  norm_num
  omega

theorem random_uuid_go_ok_shape {ent : Nat → Nat} {c : Ctx} {base m : Nat} :
    ∀ (n k : Nat) (r r2 : Reg) (u : Uuid),
      Registry.random_uuid_go ent c base m n k r = (.ok u, r2) →
      ∃ j, u = Registry.make_uuid_with_base base (ent j) := by
  intro n
  induction n with
  | zero =>
      intro k r r2 u h
      simp [Registry.random_uuid_go] at h
  | succ n ih =>
      intro k r r2 u h
      unfold Registry.random_uuid_go at h
      by_cases hp :
          (Registry.try_insert r c
            (Registry.make_uuid_with_base base (ent k))).1
      · simp only [hp, if_pos] at h
        obtain ⟨h1, -⟩ := Prod.mk.injEq .. ▸ h
        exact ⟨k, (Except.ok.injEq .. ▸ h1).symm⟩
      · simp only [hp, if_neg, Bool.false_eq_true, not_false_eq_true] at h
        exact ih _ _ _ _ h

theorem random_uuid_go_error_shape {ent : Nat → Nat} {c : Ctx}
    {base m : Nat} :
    ∀ (n k : Nat) (r : Reg) (e : UuidPoolError),
      (Registry.random_uuid_go ent c base m n k r).1 = .error e →
      e = .FailedToGenerateUniqueUuidError (.afterAttempts m) := by
  intro n
  induction n with
  | zero =>
      intro k r e h
      simpa [Registry.random_uuid_go] using h.symm
  | succ n ih =>
      intro k r e h
      unfold Registry.random_uuid_go at h
      by_cases hp :
          (Registry.try_insert r c
            (Registry.make_uuid_with_base base (ent k))).1
      · simp [hp] at h
      · simp only [hp, if_neg, Bool.false_eq_true, not_false_eq_true] at h
        exact ih _ _ _ h

theorem random_uuid_go_ent_agree {c : Ctx} {base m : Nat}
    (ent ent' : Nat → Nat) :
    ∀ (n k : Nat) (r : Reg),
      (∀ i, k ≤ i → i < k + n → ent i = ent' i) →
      Registry.random_uuid_go ent c base m n k r =
        Registry.random_uuid_go ent' c base m n k r := by
  intro n
  induction n with
  | zero => intro k r _; rfl
  | succ n ih =>
      intro k r hag
      unfold Registry.random_uuid_go
      have hk : ent k = ent' k := hag k (le_refl k) (by omega)
      rw [hk]
      by_cases hp :
          (Registry.try_insert r c
            (Registry.make_uuid_with_base base (ent' k))).1
      · simp [hp]
      · simp only [hp, if_neg, Bool.false_eq_true, not_false_eq_true]
        exact ih (k + 1) _ (fun i h1 h2 => hag i (by omega) (by omega))

/-! ### Claim C1 -/

/-- C1: every registry state reachable from the empty registry by any
sequence of public operations (reserve, add, remove, try_remove, replace,
get, clear_context, clear_all, over either backend) stores, for every
context, a token set with no two equal tokens; operations that return
errors are included in the step relation, so a failed operation also
leaves this uniqueness invariant intact. -/
theorem c1_reachable_uniqueness (r : Reg) (h : Reachable r) (c : Ctx)
    (s : List Uuid) (hs : lookupCtx r.entries c = some s) : s.Nodup :=
  reachable_WF h (c, s) (lookup_mem hs)

/-- C1 witness: the state reached by one successful add holds the
duplicate-free token list [3] for context a. -/
theorem c1_reachable_uniqueness_witness : ([3] : List Uuid).Nodup :=
  c1_reachable_uniqueness ⟨[("a", [3])]⟩
    (Reachable.step Reachable.empty (Step.add "a" 3 Reg.empty)) "a" [3]
    (by decide)

/-! ### Claim C4 -/

/-- C4: for every context, base value below `2 ^ 32`, retry budget and
entropy stream, every token that reserve returns has its high-order 32
bits equal to the base value. -/
theorem c4_reserve_base_bits (ent : Nat → Nat) (r : Reg) (c : Ctx)
    (base maxRetries : Nat) {u : Nat} {r2 : Reg} (hb : base < 2 ^ 32)
    (h : Interface.reserve_with ent r c base maxRetries = (.ok u, r2)) :
    u / 2 ^ 96 = base := by
  obtain ⟨j, hj⟩ := random_uuid_go_ok_shape _ _ _ _ _ h
  rw [hj, make_uuid_with_base_div, Nat.mod_eq_of_lt hb]

/-- C4 witness: a successful reserve with base 5 and budget 1 returns a
token whose top 32 bits are 5. -/
theorem c4_reserve_base_bits_witness :
    Registry.make_uuid_with_base 5 0 / 2 ^ 96 = 5 :=
  c4_reserve_base_bits (fun _ => 0) Reg.empty "c" 5 1 (by decide)
    (show Interface.reserve_with (fun _ => 0) Reg.empty "c" 5 1 =
        (.ok (Registry.make_uuid_with_base 5 0),
          ⟨[("c", [Registry.make_uuid_with_base 5 0])]⟩) by decide)

/-! ### Claim C5 -/

/-- C5 counterexample: with all-zero random bytes the candidate's
low-order 96 bits are not the 96 random bits (zero): `Uuid::new_v8`
forces the version nibble and the variant bits, so the all-zero entropy
value is not a possible low-96 outcome. -/
theorem c5_entropy_passthrough_counterexample :
    Registry.make_uuid_with_base 0 0 % 2 ^ 96 = 8 * 2 ^ 76 + 2 * 2 ^ 62 ∧
    Registry.make_uuid_with_base 0 0 % 2 ^ 96 ≠ 0 := by decide

/-- C5 amended: every candidate token's low-order 96 bits equal the 96
random bits generated for that attempt except for six fixed bits stamped
by `Uuid::new_v8`: bits 76..80 are forced to 0b1000 (the version nibble)
and bits 62..64 are forced to 0b10 (the RFC 4122 variant); every other
entropy bit passes through unchanged. -/
theorem c5_entropy_bits (base e : Nat) :
    Registry.make_uuid_with_base base e % 2 ^ 96 % 2 ^ 62 = e % 2 ^ 62 ∧
    Registry.make_uuid_with_base base e % 2 ^ 96 / 2 ^ 62 % 4 = 2 ∧
    Registry.make_uuid_with_base base e % 2 ^ 96 / 2 ^ 64 % 2 ^ 12 =
      e % 2 ^ 96 / 2 ^ 64 % 2 ^ 12 ∧
    Registry.make_uuid_with_base base e % 2 ^ 96 / 2 ^ 76 % 2 ^ 4 = 8 ∧
    Registry.make_uuid_with_base base e % 2 ^ 96 / 2 ^ 80 =
      e % 2 ^ 96 / 2 ^ 80 := by
  rw [make_uuid_with_base_eq]
  norm_num
  omega

/-! ### Claim C6 -/

/-- C6: reserve makes at most maxRetries candidate-generation attempts
(its outcome depends only on the first maxRetries entropy values); when
it fails the error is GenerationExhausted carrying the attempt count; and
with maxRetries = 0 it fails immediately with attempt count 0 leaving the
registry untouched. -/
theorem c6_bounded_retries (ent ent' : Nat → Nat) (r : Reg) (c : Ctx)
    (base maxRetries : Nat) :
    (∀ e : UuidPoolError,
        (Registry.random_uuid ent r c base maxRetries 0).1 = .error e →
        e = .FailedToGenerateUniqueUuidError (.afterAttempts maxRetries)) ∧
    Registry.random_uuid ent r c base 0 0 =
      (.error (.FailedToGenerateUniqueUuidError (.afterAttempts 0)), r) ∧
    ((∀ i, i < maxRetries → ent i = ent' i) →
      Registry.random_uuid ent r c base maxRetries 0 =
        Registry.random_uuid ent' r c base maxRetries 0) := by
  refine ⟨?_, rfl, ?_⟩
  · intro e h
    exact random_uuid_go_error_shape _ _ _ _ h
  · intro hag
    exact random_uuid_go_ent_agree ent ent' _ 0 r
      (fun i h1 h2 => hag i (by omega))

/-- C6 witness: the three parts evaluated concretely — a run that
exhausts a budget of 2 reports attempt count 2; a budget-0 run fails
immediately with count 0 and an unchanged registry; and a run with
budget 3 ignores entropy values beyond index 3. -/
theorem c6_bounded_retries_witness :
    UuidPoolError.FailedToGenerateUniqueUuidError (.afterAttempts 2) =
      .FailedToGenerateUniqueUuidError (.afterAttempts 2) ∧
    Registry.random_uuid (fun _ => 0) Reg.empty "c" 7 0 0 =
      (.error (.FailedToGenerateUniqueUuidError (.afterAttempts 0)),
        Reg.empty) ∧
    Registry.random_uuid (fun _ => 0) Reg.empty "c" 7 3 0 =
      Registry.random_uuid (fun i => if i < 3 then 0 else 9) Reg.empty "c"
        7 3 0 := by
  refine ⟨?_, ?_, ?_⟩
  · exact (c6_bounded_retries (fun _ => 0) (fun _ => 0)
      ⟨[("c", [Registry.make_uuid_with_base 7 0])]⟩ "c" 7 2).1 _ (by decide)
  · exact (c6_bounded_retries (fun _ => 0) (fun _ => 0) Reg.empty "c" 7 0).2.1
  · exact (c6_bounded_retries (fun _ => 0) (fun i => if i < 3 then 0 else 9)
      Reg.empty "c" 7 3).2.2 (fun i h => by simp [h])

/-! ### Membership lemmas for contains and try_insert -/

theorem contains_true_iff (r : Reg) (c : Ctx) (u : Uuid) :
    Registry.contains r c u = true ↔
      ∃ s, lookupCtx r.entries c = some s ∧ u ∈ s := by
  unfold Registry.contains
  cases h : lookupCtx r.entries c <;> simp

theorem try_insert_contains_true {r : Reg} {c : Ctx} {u : Uuid}
    (h : Registry.contains r c u = true) :
    Registry.try_insert r c u = (false, r) := by
  rw [contains_true_iff] at h
  obtain ⟨s, hs, hu⟩ := h
  unfold Registry.try_insert
  rw [hs]
  simp [hu]

theorem not_mem_getD_of_contains_false {r : Reg} {c : Ctx} {u : Uuid}
    (h : Registry.contains r c u = false) :
    u ∉ (lookupCtx r.entries c).getD [] := by
  unfold Registry.contains at h
  cases hs : lookupCtx r.entries c with
  | none => simp
  | some s =>
      rw [hs] at h
      simpa using h

theorem try_insert_contains_false {r : Reg} {c : Ctx} {u : Uuid}
    (h : Registry.contains r c u = false) :
    (Registry.try_insert r c u).1 = true ∧
    (Registry.try_insert r c u).2.entries =
      setCtx r.entries c (u :: (lookupCtx r.entries c).getD []) := by
  unfold Registry.contains at h
  unfold Registry.try_insert
  cases hs : lookupCtx r.entries c with
  | none => simp
  | some s =>
      rw [hs] at h
      simp only [decide_eq_false_iff_not] at h
      simp [h]

theorem add_of_contains_true {r : Reg} {c : Ctx} {u : Uuid}
    (h : Registry.contains r c u = true) :
    Registry.add_uuid_to_pool r c u =
      (.error (.FailedToGenerateUniqueUuidError (.alreadyExists c u)), r) := by
  simp [Registry.add_uuid_to_pool, h]

/-! ### Claim C7 -/

/-- C7: add fails with the AlreadyPresent error exactly when the token is
already a member of the context, otherwise it inserts the token so that
get afterwards holds exactly one copy of it; sequentially add is
observably equal to a single insert_if_absent call (`add_single`), and a
second add of the same token right after a successful one fails with
AlreadyPresent. -/
theorem c7_add_insert_if_absent_equiv (r : Reg) (c : Ctx) (u : Uuid) :
    Registry.add_uuid_to_pool r c u = add_single r c u ∧
    ((Registry.add_uuid_to_pool r c u).1 =
        .error (.FailedToGenerateUniqueUuidError (.alreadyExists c u)) ↔
      Registry.contains r c u = true) ∧
    (Registry.contains r c u = false →
      ∃ l, Interface.get (Registry.add_uuid_to_pool r c u).2 c = .ok l ∧
        l.count (c, u) = 1) ∧
    ((Registry.add_uuid_to_pool r c u).1 = .ok () →
      (Registry.add_uuid_to_pool (Registry.add_uuid_to_pool r c u).2 c u).1 =
        .error (.FailedToGenerateUniqueUuidError (.alreadyExists c u))) := by
  cases hc : Registry.contains r c u with
  | true =>
      have ht := try_insert_contains_true hc
      refine ⟨?_, ?_, ?_, ?_⟩
      · simp [Registry.add_uuid_to_pool, add_single, hc, ht]
      · simp [Registry.add_uuid_to_pool, hc]
      · intro h
        exact Bool.noConfusion h
      · intro h
        simp [Registry.add_uuid_to_pool, hc] at h
  | false =>
      obtain ⟨hp1, hp2⟩ := try_insert_contains_false hc
      have hnm := not_mem_getD_of_contains_false hc
      have hlook :
          lookupCtx (Registry.add_uuid_to_pool r c u).2.entries c =
            some (u :: (lookupCtx r.entries c).getD []) := by
        simp only [Registry.add_uuid_to_pool, hc, hp1, if_pos]
        rw [hp2, lookup_setCtx_self]
      refine ⟨?_, ?_, ?_, ?_⟩
      · simp [Registry.add_uuid_to_pool, add_single, hc, hp1]
      · simp [Registry.add_uuid_to_pool, hc, hp1]
      · intro _
        refine ⟨(u :: (lookupCtx r.entries c).getD []).map (fun v => (c, v)),
          ?_, ?_⟩
        · simp [Interface.get, Registry.get_context_uuids_from_pool, hlook]
        · simp only [List.map_cons]
          rw [List.count_cons_self]
          have hz :
              (((lookupCtx r.entries c).getD []).map
                  (fun v : Uuid => (c, v))).count (c, u) = 0 := by
            rw [List.count_eq_zero]
            intro hmem
            obtain ⟨v, hv, hpair⟩ := List.mem_map.mp hmem
            have hv2 : v = u := (Prod.ext_iff.mp hpair).2
            exact hnm (hv2 ▸ hv)
          rw [hz]
      · intro _
        have hc2 : Registry.contains (Registry.add_uuid_to_pool r c u).2 c u =
            true :=
          (contains_true_iff _ _ _).mpr
            ⟨_, hlook, List.mem_cons_self _ _⟩
        rw [add_of_contains_true hc2]

/-- C7 witness: the four parts evaluated on a concrete state where token
2 is absent from context c. -/
theorem c7_add_insert_if_absent_equiv_witness :
    (Registry.contains ⟨[("c", [1])]⟩ "c" 2 = false →
      ∃ l,
        Interface.get (Registry.add_uuid_to_pool ⟨[("c", [1])]⟩ "c" 2).2 "c" =
          .ok l ∧ l.count ("c", 2) = 1) ∧
    ((Registry.add_uuid_to_pool ⟨[("c", [1])]⟩ "c" 2).1 = .ok () →
      (Registry.add_uuid_to_pool
          (Registry.add_uuid_to_pool ⟨[("c", [1])]⟩ "c" 2).2 "c" 2).1 =
        .error (.FailedToGenerateUniqueUuidError (.alreadyExists "c" 2))) :=
  ⟨(c7_add_insert_if_absent_equiv ⟨[("c", [1])]⟩ "c" 2).2.2.1,
    (c7_add_insert_if_absent_equiv ⟨[("c", [1])]⟩ "c" 2).2.2.2⟩

/-! ### Claim C8 -/

/-- C8 counterexample: with `old = new` and both absent, replace first
establishes the token via add, then finds and removes it, then
re-inserts it — and returns success, not a NotFound error, while still
having inserted the token. -/
theorem c8_replace_both_absent_counterexample :
    Registry.replace_uuid_in_pool Backend.singleThreaded Reg.empty "c" 1 1 =
      (.ok (), ⟨[("c", [1])]⟩) ∧
    isNotFound
        (Registry.replace_uuid_in_pool Backend.singleThreaded Reg.empty "c" 1
          1).1 = false := by decide

/-- C8 amended: if replace is called with `old` absent from the context,
`new` absent from the context, and `old ≠ new`, the call inserts `new`
into the context and nevertheless reports a NotFound error for `old`
(the establish-new path falls through to the removal of the absent old
token). -/
theorem c8_replace_mutates_on_not_found (bk : Backend) (r : Reg) (c : Ctx)
    (old_uuid new_uuid : Uuid) (hne : old_uuid ≠ new_uuid)
    (hold : Registry.contains r c old_uuid = false)
    (hnew : Registry.contains r c new_uuid = false) :
    (Registry.replace_uuid_in_pool bk r c old_uuid new_uuid).1 =
      .error (.FailedToFindUuidInPoolError (.findFailed c old_uuid)) ∧
    Registry.contains
        (Registry.replace_uuid_in_pool bk r c old_uuid new_uuid).2 c
        new_uuid = true := by
  obtain ⟨hp1, hp2⟩ := try_insert_contains_false hnew
  have hold_nm : old_uuid ∉ (lookupCtx r.entries c).getD [] :=
    not_mem_getD_of_contains_false hold
  have hadd : Registry.add_uuid_to_pool r c new_uuid =
      (.ok (), (Registry.try_insert r c new_uuid).2) := by
    simp [Registry.add_uuid_to_pool, hnew, hp1]
  have hlk1 :
      lookupCtx (Registry.try_insert r c new_uuid).2.entries c =
        some (new_uuid :: (lookupCtx r.entries c).getD []) := by
    rw [hp2, lookup_setCtx_self]
  have hnotmem :
      old_uuid ∉ new_uuid :: (lookupCtx r.entries c).getD [] := by
    intro hmem
    rcases List.mem_cons.mp hmem with h1 | h1
    · exact hne h1
    · exact hold_nm h1
  have hrem :
      (Registry.remove bk (Registry.try_insert r c new_uuid).2 c
          old_uuid).1 = false ∧
      lookupCtx
          (Registry.remove bk (Registry.try_insert r c new_uuid).2 c
            old_uuid).2.entries c =
        some (new_uuid :: (lookupCtx r.entries c).getD []) := by
    have herase := List.erase_of_not_mem hnotmem
    cases bk with
    | singleThreaded =>
        simp [Registry.remove, hlk1, herase, hnotmem, lookup_setCtx_self]
    | concurrent =>
        simp [Registry.remove, hlk1, herase, hnotmem, lookup_setCtx_self]
  have hrepl :
      Registry.replace_uuid_in_pool bk r c old_uuid new_uuid =
        (.error (.FailedToFindUuidInPoolError (.findFailed c old_uuid)),
          (Registry.remove bk (Registry.try_insert r c new_uuid).2 c
            old_uuid).2) := by
    unfold Registry.replace_uuid_in_pool
    simp [hold, hadd, hrem.1]
  rw [hrepl]
  exact ⟨rfl,
    (contains_true_iff _ _ _).mpr ⟨_, hrem.2, List.mem_cons_self _ _⟩⟩

/-- C8 witness: the amended statement at a concrete input — replace on an
empty registry with distinct absent tokens 1 and 2 reports NotFound for 1
yet leaves 2 inserted. -/
theorem c8_replace_mutates_on_not_found_witness :
    (Registry.replace_uuid_in_pool Backend.singleThreaded Reg.empty "c" 1
        2).1 =
      .error (.FailedToFindUuidInPoolError (.findFailed "c" 1)) ∧
    Registry.contains
        (Registry.replace_uuid_in_pool Backend.singleThreaded Reg.empty "c" 1
          2).2 "c" 2 = true :=
  c8_replace_mutates_on_not_found .singleThreaded Reg.empty "c" 1 2
    (by decide) (by decide) (by decide)

/-! ### Claim C2 -/

/-- When the old token heads the context's list (with no second copy)
and the new token is absent, replace succeeds and the context's list
afterwards is the new token followed by the old tail, under either
backend (the single-threaded backend may prune and recreate the entry
when the tail is empty, landing on the same list). -/
theorem replace_head (bk : Backend) {r : Reg} {c : Ctx} {A B : Uuid}
    {s0 : List Uuid} (hlk : lookupCtx r.entries c = some (A :: s0))
    (hA : A ∉ s0) (hB : B ∉ A :: s0) :
    (Registry.replace_uuid_in_pool bk r c A B).1 = .ok () ∧
    lookupCtx (Registry.replace_uuid_in_pool bk r c A B).2.entries c =
      some (B :: s0) := by
  have hcA : Registry.contains r c A = true :=
    (contains_true_iff _ _ _).mpr ⟨_, hlk, List.mem_cons_self _ _⟩
  have hBs0 : B ∉ s0 := fun hm => hB (List.mem_cons_of_mem _ hm)
  have hrem : (Registry.remove bk r c A).1 = true ∧
      ((lookupCtx (Registry.remove bk r c A).2.entries c = none ∧ s0 = []) ∨
        lookupCtx (Registry.remove bk r c A).2.entries c = some s0) := by
    cases bk with
    | singleThreaded =>
        by_cases hse : s0.isEmpty
        · have hs0 : s0 = [] := List.isEmpty_iff.mp hse
          refine ⟨?_, Or.inl ⟨?_, hs0⟩⟩ <;>
            simp [Registry.remove, hlk, List.erase_cons_head, hse,
              lookup_delCtx_self]
        · refine ⟨?_, Or.inr ?_⟩ <;>
            simp [Registry.remove, hlk, List.erase_cons_head, hse,
              lookup_setCtx_self]
    | concurrent =>
        refine ⟨?_, Or.inr ?_⟩ <;>
          simp [Registry.remove, hlk, List.erase_cons_head,
            lookup_setCtx_self]
  have hins :
      (Registry.try_insert (Registry.remove bk r c A).2 c B).1 = true ∧
      lookupCtx (Registry.try_insert (Registry.remove bk r c A).2 c
          B).2.entries c = some (B :: s0) := by
    rcases hrem.2 with ⟨hnone, hs0⟩ | hsome
    · subst hs0
      simp [Registry.try_insert, hnone, lookup_setCtx_self]
    · simp [Registry.try_insert, hsome, hBs0, lookup_setCtx_self]
  have hrepl : Registry.replace_uuid_in_pool bk r c A B =
      (.ok (), (Registry.try_insert (Registry.remove bk r c A).2 c B).2) := by
    unfold Registry.replace_uuid_in_pool
    simp [hcA, hrem.1, hins.1]
  rw [hrepl]
  exact ⟨rfl, hins.2⟩

/-- When the old token is absent and the new token present, replace
propagates the AlreadyPresent error of its establish-new add step. -/
theorem replace_error_of_absent_present {bk : Backend} {r : Reg} {c : Ctx}
    {A B : Uuid} (hA : Registry.contains r c A = false)
    (hB : Registry.contains r c B = true) :
    (Registry.replace_uuid_in_pool bk r c A B).1 =
      .error (.FailedToGenerateUniqueUuidError (.alreadyExists c B)) := by
  unfold Registry.replace_uuid_in_pool
  simp [hA, add_of_contains_true hB]

/-- C2 corrected round trip: after a successful add of A, with B absent,
replace(c, A, B) succeeds, get then lists B and not A, and a second
replace(c, A, B) fails — but with the AlreadyPresent error produced by
the establish-new add path (B is already present), not with NotFound. -/
theorem c2_replace_roundtrip (bk : Backend) (r : Reg) (c : Ctx) (A B : Uuid)
    (h1 : (Registry.add_uuid_to_pool r c A).1 = .ok ())
    (h2 : Registry.contains (Registry.add_uuid_to_pool r c A).2 c B = false) :
    (Registry.replace_uuid_in_pool bk (Registry.add_uuid_to_pool r c A).2 c
        A B).1 = .ok () ∧
    (∃ l,
      Interface.get
          (Registry.replace_uuid_in_pool bk
            (Registry.add_uuid_to_pool r c A).2 c A B).2 c = .ok l ∧
        (c, B) ∈ l ∧ (c, A) ∉ l) ∧
    (Registry.replace_uuid_in_pool bk
        (Registry.replace_uuid_in_pool bk (Registry.add_uuid_to_pool r c A).2
          c A B).2 c A B).1 =
      .error (.FailedToGenerateUniqueUuidError (.alreadyExists c B)) := by
  have hA : Registry.contains r c A = false := by
    cases hc : Registry.contains r c A with
    | false => rfl
    | true =>
        rw [add_of_contains_true hc] at h1
        exact absurd h1 (by simp)
  obtain ⟨hp1, hp2⟩ := try_insert_contains_false hA
  have hA_nm : A ∉ (lookupCtx r.entries c).getD [] :=
    not_mem_getD_of_contains_false hA
  have hadd : Registry.add_uuid_to_pool r c A =
      (.ok (), (Registry.try_insert r c A).2) := by
    simp [Registry.add_uuid_to_pool, hA, hp1]
  have hlk1 :
      lookupCtx (Registry.add_uuid_to_pool r c A).2.entries c =
        some (A :: (lookupCtx r.entries c).getD []) := by
    rw [hadd, hp2, lookup_setCtx_self]
  have hB_nm : B ∉ A :: (lookupCtx r.entries c).getD [] := by
    have hg := not_mem_getD_of_contains_false h2
    rwa [hlk1] at hg
  obtain ⟨hok, hlk2⟩ := replace_head bk hlk1 hA_nm hB_nm
  have hBA : A ≠ B := fun hab => hB_nm (hab ▸ List.mem_cons_self _ _)
  have hA2 : A ∉ B :: (lookupCtx r.entries c).getD [] := by
    intro hm
    rcases List.mem_cons.mp hm with hh | hh
    · exact hBA hh
    · exact hA_nm hh
  refine ⟨hok, ?_, ?_⟩
  · refine ⟨(B :: (lookupCtx r.entries c).getD []).map (fun v => (c, v)),
      ?_, ?_, ?_⟩
    · simp [Interface.get, Registry.get_context_uuids_from_pool, hlk2]
    · exact List.mem_map.mpr ⟨B, List.mem_cons_self _ _, rfl⟩
    · intro hm
      obtain ⟨v, hv, hpair⟩ := List.mem_map.mp hm
      have hv2 : v = A := (Prod.ext_iff.mp hpair).2
      exact hA2 (hv2 ▸ hv)
  · have hcA2 : Registry.contains
        (Registry.replace_uuid_in_pool bk (Registry.add_uuid_to_pool r c A).2
          c A B).2 c A = false := by
      unfold Registry.contains
      rw [hlk2]
      simpa using hA2
    have hcB2 : Registry.contains
        (Registry.replace_uuid_in_pool bk (Registry.add_uuid_to_pool r c A).2
          c A B).2 c B = true :=
      (contains_true_iff _ _ _).mpr ⟨_, hlk2, List.mem_cons_self _ _⟩
    exact replace_error_of_absent_present hcA2 hcB2

/-- C2 counterexample: in the canonical round trip (add 1, replace 1→2,
replace 1→2 again) the second replace does fail, but its error is the
AlreadyPresent kind (FailedToGenerateUniqueUuidError naming token 2),
not the claimed NotFound kind. -/
theorem c2_second_replace_error_counterexample :
    (Registry.replace_uuid_in_pool Backend.singleThreaded
        (Registry.replace_uuid_in_pool Backend.singleThreaded
          (Registry.add_uuid_to_pool Reg.empty "c" 1).2 "c" 1 2).2 "c" 1
        2).1 =
      .error (.FailedToGenerateUniqueUuidError (.alreadyExists "c" 2)) ∧
    isNotFound
        (Registry.replace_uuid_in_pool Backend.singleThreaded
          (Registry.replace_uuid_in_pool Backend.singleThreaded
            (Registry.add_uuid_to_pool Reg.empty "c" 1).2 "c" 1 2).2 "c" 1
          2).1 = false := by decide

/-- C2 witness: the corrected round trip at a concrete input (empty
registry, A = 1, B = 2, single-threaded backend). -/
theorem c2_replace_roundtrip_witness :
    (Registry.replace_uuid_in_pool Backend.singleThreaded
        (Registry.add_uuid_to_pool Reg.empty "c" 1).2 "c" 1 2).1 = .ok () ∧
    (∃ l,
      Interface.get
          (Registry.replace_uuid_in_pool Backend.singleThreaded
            (Registry.add_uuid_to_pool Reg.empty "c" 1).2 "c" 1 2).2 "c" =
        .ok l ∧ ("c", 2) ∈ l ∧ ("c", 1) ∉ l) ∧
    (Registry.replace_uuid_in_pool Backend.singleThreaded
        (Registry.replace_uuid_in_pool Backend.singleThreaded
          (Registry.add_uuid_to_pool Reg.empty "c" 1).2 "c" 1 2).2 "c" 1
        2).1 =
      .error (.FailedToGenerateUniqueUuidError (.alreadyExists "c" 2)) :=
  c2_replace_roundtrip .singleThreaded Reg.empty "c" 1 2 (by decide)
    (by decide)

/-! ### Claim C3 -/

theorem remove_pool_state (bk : Backend) (r : Reg) (c : Ctx) (u : Uuid) :
    (Registry.remove_uuid_from_pool bk r c u).2 =
      (Registry.remove bk r c u).2 := by
  unfold Registry.remove_uuid_from_pool
  cases hb : (Registry.remove bk r c u).1 <;> simp [hb]

/-- C3 counterexample: under the concurrent backend, after removing the
only token of a context, the emptied set entry stays in the map and get
returns an empty snapshot with success — not the claimed NotFound
error. -/
theorem c3_empty_context_get_counterexample :
    Interface.get
        (Interface.remove Backend.concurrent (Interface.add Reg.empty "c" 1).2
          "c" 1).2 "c" = .ok [] ∧
    isNotFound
        (Interface.get
          (Interface.remove Backend.concurrent
            (Interface.add Reg.empty "c" 1).2 "c" 1).2 "c") = false := by
  decide

/-- C3 amended: get fails with NotFound exactly when the context key is
absent from the map, and otherwise returns the snapshot of every token
paired with the context name; after a remove that empties a context, the
single-threaded backend prunes the entry so get fails with NotFound,
while the concurrent backend keeps the empty entry and get succeeds with
an empty snapshot. -/
theorem c3_get_characterization (r : Reg) (c : Ctx) :
    (isNotFound (Interface.get r c) = true ↔
      lookupCtx r.entries c = none) ∧
    (∀ s, lookupCtx r.entries c = some s →
      Interface.get r c = .ok (s.map (fun u => (c, u)))) ∧
    (∀ u s, lookupCtx r.entries c = some s → s.erase u = [] →
      Interface.get (Interface.remove .singleThreaded r c u).2 c =
        .error (.FailedToFindUuidInPoolError (.findCtxFailed c))) ∧
    (∀ u s, lookupCtx r.entries c = some s → s.erase u = [] →
      Interface.get (Interface.remove .concurrent r c u).2 c = .ok []) := by
  refine ⟨?_, ?_, ?_, ?_⟩
  · unfold Interface.get Registry.get_context_uuids_from_pool
    cases hs : lookupCtx r.entries c <;> simp [isNotFound]
  · intro s hs
    simp [Interface.get, Registry.get_context_uuids_from_pool, hs]
  · intro u s hs he
    have hstate : (Registry.remove .singleThreaded r c u).2 =
        ⟨delCtx r.entries c⟩ := by
      simp [Registry.remove, hs, he]
    simp [Interface.remove, remove_pool_state, hstate, Interface.get,
      Registry.get_context_uuids_from_pool, lookup_delCtx_self]
  · intro u s hs he
    have hstate : (Registry.remove .concurrent r c u).2 =
        ⟨setCtx r.entries c []⟩ := by
      simp [Registry.remove, hs, he]
    simp [Interface.remove, remove_pool_state, hstate, Interface.get,
      Registry.get_context_uuids_from_pool, lookup_setCtx_self]

/-- C3 witness: removing the only token of context c makes get fail with
NotFound under the single-threaded backend and succeed with an empty
snapshot under the concurrent backend. -/
theorem c3_get_characterization_witness :
    Interface.get
        (Interface.remove Backend.singleThreaded ⟨[("c", [4])]⟩ "c" 4).2
        "c" =
      .error (.FailedToFindUuidInPoolError (.findCtxFailed "c")) ∧
    Interface.get
        (Interface.remove Backend.concurrent ⟨[("c", [4])]⟩ "c" 4).2 "c" =
      .ok [] :=
  ⟨(c3_get_characterization ⟨[("c", [4])]⟩ "c").2.2.1 4 [4] (by decide)
      (by decide),
    (c3_get_characterization ⟨[("c", [4])]⟩ "c").2.2.2 4 [4] (by decide)
      (by decide)⟩

/-! ### Frame lemmas: operations on one context leave every other
context's token set untouched -/

theorem lookup_try_insert_ne {c c' : Ctx} (h : c' ≠ c) (r : Reg) (u : Uuid) :
    lookupCtx (Registry.try_insert r c u).2.entries c' =
      lookupCtx r.entries c' := by
  unfold Registry.try_insert
  cases hs : lookupCtx r.entries c with
  | none => simp [lookup_setCtx_ne _ _ _ _ h]
  | some s => by_cases hu : u ∈ s <;> simp [hu, lookup_setCtx_ne _ _ _ _ h]

theorem lookup_remove_ne (bk : Backend) {c c' : Ctx} (h : c' ≠ c) (r : Reg)
    (u : Uuid) :
    lookupCtx (Registry.remove bk r c u).2.entries c' =
      lookupCtx r.entries c' := by
  cases bk with
  | singleThreaded =>
      unfold Registry.remove
      cases hs : lookupCtx r.entries c with
      | none => rfl
      | some s =>
          by_cases he : (s.erase u).isEmpty <;>
            simp [he, lookup_setCtx_ne _ _ _ _ h, lookup_delCtx_ne _ _ _ h]
  | concurrent =>
      unfold Registry.remove
      cases hs : lookupCtx r.entries c with
      | none => rfl
      | some s => simp [lookup_setCtx_ne _ _ _ _ h]

theorem lookup_random_uuid_go_ne {ent : Nat → Nat} {c c' : Ctx}
    {base m : Nat} (h : c' ≠ c) :
    ∀ (n k : Nat) (r : Reg),
      lookupCtx (Registry.random_uuid_go ent c base m n k r).2.entries c' =
        lookupCtx r.entries c' := by
  intro n
  induction n with
  | zero => intro k r; rfl
  | succ n ih =>
      intro k r
      unfold Registry.random_uuid_go
      by_cases hp :
          (Registry.try_insert r c
            (Registry.make_uuid_with_base base (ent k))).1
      · simpa [hp] using lookup_try_insert_ne h r _
      · simp only [hp, if_neg, Bool.false_eq_true, not_false_eq_true]
        rw [ih (k + 1) _]
        exact lookup_try_insert_ne h r _

theorem lookup_add_ne {c c' : Ctx} (h : c' ≠ c) (r : Reg) (u : Uuid) :
    lookupCtx (Registry.add_uuid_to_pool r c u).2.entries c' =
      lookupCtx r.entries c' := by
  unfold Registry.add_uuid_to_pool
  cases hc : Registry.contains r c u with
  | true => rfl
  | false =>
      by_cases hp : (Registry.try_insert r c u).1 <;>
        simpa [hp] using lookup_try_insert_ne h r u

theorem lookup_remove_pool_ne (bk : Backend) {c c' : Ctx} (h : c' ≠ c)
    (r : Reg) (u : Uuid) :
    lookupCtx (Registry.remove_uuid_from_pool bk r c u).2.entries c' =
      lookupCtx r.entries c' := by
  unfold Registry.remove_uuid_from_pool
  cases hb : (Registry.remove bk r c u).1 <;>
    simpa [hb] using lookup_remove_ne bk h r u

theorem lookup_replace_ne (bk : Backend) {c c' : Ctx} (h : c' ≠ c)
    (r : Reg) (old_uuid new_uuid : Uuid) :
    lookupCtx (Registry.replace_uuid_in_pool bk r c old_uuid new_uuid).2.entries
        c' = lookupCtx r.entries c' := by
  have hti : ∀ (r2 : Reg) (v : Uuid),
      lookupCtx (Registry.try_insert r2 c v).2.entries c' =
        lookupCtx r2.entries c' := fun r2 v => lookup_try_insert_ne h r2 v
  have hrm : ∀ (r2 : Reg) (v : Uuid),
      lookupCtx (Registry.remove bk r2 c v).2.entries c' =
        lookupCtx r2.entries c' := fun r2 v => lookup_remove_ne bk h r2 v
  unfold Registry.replace_uuid_in_pool
  by_cases hc : Registry.contains r c old_uuid
  · by_cases hrem : (Registry.remove bk r c old_uuid).1
    · by_cases hins :
          (Registry.try_insert (Registry.remove bk r c old_uuid).2 c
            new_uuid).1
      · simp [hc, hrem, hins, hti, hrm]
      · simp [hc, hrem, hins, hti, hrm]
    · simp [hc, hrem, hrm]
  · cases hadd : Registry.add_uuid_to_pool r c new_uuid with
    | mk res r1 =>
        have h1 : lookupCtx r1.entries c' = lookupCtx r.entries c' := by
          have := lookup_add_ne h r new_uuid
          rwa [hadd] at this
        cases res with
        | error e => simp [hc, hadd, h1]
        | ok _ =>
            by_cases hrem : (Registry.remove bk r1 c old_uuid).1
            · by_cases hins :
                  (Registry.try_insert (Registry.remove bk r1 c old_uuid).2 c
                    new_uuid).1
              · simp [hc, hadd, hrem, hins, hti, hrm, h1]
              · simp [hc, hadd, hrem, hins, hti, hrm, h1]
            · simp [hc, hadd, hrem, hrm, h1]

theorem lookup_clear_context_ne {c c' : Ctx} (h : c' ≠ c) (r : Reg) :
    lookupCtx (Registry.clear_context r c).entries c' =
      lookupCtx r.entries c' :=
  lookup_delCtx_ne _ _ _ h

/-! ### Claim C9 -/

/-- C9: every public operation applied to a context c leaves the token
set of every other context c' unchanged, and — because uniqueness is
per-context — adding one same token under two distinct contexts starting
from the empty registry succeeds both times. -/
theorem c9_per_context_isolation (c c' : Ctx) (h : c' ≠ c) (bk : Backend)
    (ent : Nat → Nat) (r : Reg) (base maxRetries : Nat)
    (u old_uuid new_uuid T : Uuid) (c1 c2 : Ctx) (h12 : c1 ≠ c2) :
    lookupCtx (Interface.reserve_with ent r c base maxRetries).2.entries c' =
      lookupCtx r.entries c' ∧
    lookupCtx (Interface.add r c u).2.entries c' = lookupCtx r.entries c' ∧
    lookupCtx (Interface.remove bk r c u).2.entries c' =
      lookupCtx r.entries c' ∧
    lookupCtx (Interface.try_remove bk r c u).2.entries c' =
      lookupCtx r.entries c' ∧
    lookupCtx (Interface.replace bk r c old_uuid new_uuid).2.entries c' =
      lookupCtx r.entries c' ∧
    lookupCtx (Interface.clear_context r c).2.entries c' =
      lookupCtx r.entries c' ∧
    ((Interface.add Reg.empty c1 T).1 = .ok () ∧
      (Interface.add (Interface.add Reg.empty c1 T).2 c2 T).1 = .ok ()) := by
  refine ⟨lookup_random_uuid_go_ne h _ _ r, lookup_add_ne h r u,
    lookup_remove_pool_ne bk h r u, ?_, lookup_replace_ne bk h r _ _,
    lookup_clear_context_ne h r, ?_, ?_⟩
  · simpa [Interface.try_remove] using lookup_remove_pool_ne bk h r u
  · rfl
  · have hstate : (Interface.add Reg.empty c1 T).2 = ⟨[(c1, [T])]⟩ := rfl
    rw [hstate]
    have hlk : lookupCtx [(c1, [T])] c2 = none := by
      simp [lookupCtx, h12]
    have hcont : Registry.contains ⟨[(c1, [T])]⟩ c2 T = false := by
      simp [Registry.contains, hlk]
    simp [Interface.add, Registry.add_uuid_to_pool, hcont,
      Registry.try_insert, hlk]

/-- C9 witness: concrete instance — adding token 9 under context x and
then under context y both succeed, and a remove in context x does not
change context y. -/
theorem c9_per_context_isolation_witness :
    lookupCtx
        (Interface.remove Backend.singleThreaded ⟨[("x", [9]), ("y", [9])]⟩
          "x" 9).2.entries "y" =
      lookupCtx [("x", [9]), ("y", [9])] "y" ∧
    (Interface.add Reg.empty "x" 9).1 = .ok () ∧
    (Interface.add (Interface.add Reg.empty "x" 9).2 "y" 9).1 = .ok () := by
  have hmain := c9_per_context_isolation "x" "y" (by decide)
    Backend.singleThreaded (fun _ => 0) ⟨[("x", [9]), ("y", [9])]⟩ 0 0 9 0 0 9
    "x" "y" (by decide)
  exact ⟨hmain.2.2.1, hmain.2.2.2.2.2.2⟩

/-! ### Claim C10 -/

theorem remove_fst_eq_contains (bk : Backend) (r : Reg) (c : Ctx)
    (u : Uuid) : (Registry.remove bk r c u).1 = Registry.contains r c u := by
  cases bk with
  | singleThreaded =>
      unfold Registry.remove Registry.contains
      cases lookupCtx r.entries c with
      | none => rfl
      | some s => by_cases he : (s.erase u).isEmpty <;> simp [he]
  | concurrent =>
      unfold Registry.remove Registry.contains
      cases lookupCtx r.entries c with
      | none => rfl
      | some s => rfl

/-- C10: for every backend, state, context and token, try_remove returns
true exactly when remove in the same state returns success, the two leave
the same successor state, and both succeed exactly when the token is
currently a member of the context. -/
theorem c10_try_remove_remove_duality (bk : Backend) (r : Reg) (c : Ctx)
    (u : Uuid) :
    ((Interface.try_remove bk r c u).1 = true ↔
      (Interface.remove bk r c u).1 = .ok ()) ∧
    (Interface.try_remove bk r c u).2 = (Interface.remove bk r c u).2 ∧
    (Interface.try_remove bk r c u).1 = Registry.contains r c u := by
  have hfst := remove_fst_eq_contains bk r c u
  cases hb : (Registry.remove bk r c u).1 <;>
    simp_all [Interface.try_remove, Interface.remove,
      Registry.remove_uuid_from_pool]

/-- C10 witness: the duality evaluated on a concrete one-token state. -/
theorem c10_try_remove_remove_duality_witness :
    (Interface.try_remove Backend.singleThreaded ⟨[("c", [1])]⟩ "c" 1).1 =
      Registry.contains ⟨[("c", [1])]⟩ "c" 1 :=
  (c10_try_remove_remove_duality .singleThreaded ⟨[("c", [1])]⟩ "c" 1).2.2

end UuidRegistry
